import Mathlib

/-!
Verification development for the FriskitMonitoring log aggregation service.

This file shallowly embeds the JavaScript source of the repository:
pure functions become Lean functions, filesystem access is threaded through
an explicit environment value, wall-clock time is an explicit `Nat`
(milliseconds since the Unix epoch, server assumed to run with a UTC
timezone), and the per-service in-memory cache is explicit state.
Floating-point presentation helpers (`formatBytes`) are omitted: no logic
depends on them.
-/

/-- Models JavaScript `String.prototype.toLowerCase` (ASCII range). -/
def jsToLower (s : String) : String :=
  String.mk (s.data.map Char.toLower)

/-- `needle` occurs as a contiguous run inside `hay`. -/
def charsInfixOf (needle : List Char) : List Char → Bool
  | [] => needle.isEmpty
  | c :: rest => List.isPrefixOf needle (c :: rest) || charsInfixOf needle rest

/-- Models JavaScript `String.prototype.includes`. -/
def jsIncludes (s sub : String) : Bool :=
  charsInfixOf sub.data s.data

/-- Models JavaScript `String.prototype.trim`. -/
def jsTrim (s : String) : String :=
  String.mk ((s.data.dropWhile Char.isWhitespace).reverse.dropWhile Char.isWhitespace).reverse

/-- Models JavaScript `String.prototype.trimEnd`. -/
def jsTrimEnd (s : String) : String :=
  String.mk (s.data.reverse.dropWhile Char.isWhitespace).reverse

/-- Split characters at newline boundaries, keeping empty segments. -/
def splitNlAux : List Char → List Char → List String
  | [], acc => [String.mk acc.reverse]
  | c :: cs, acc =>
    if c = '\n' then String.mk acc.reverse :: splitNlAux cs []
    else splitNlAux cs (c :: acc)

/-- Models JavaScript `content.split('\n')` (keeps empty segments). -/
def splitOnNewline (s : String) : List String :=
  splitNlAux s.data []

/-- Zero-padded two-digit decimal rendering. -/
def pad2 (n : Nat) : String :=
  if n < 10 then "0" ++ toString n else toString n

/-- Zero-padded three-digit decimal rendering. -/
def pad3 (n : Nat) : String :=
  if n < 10 then "00" ++ toString n else if n < 100 then "0" ++ toString n else toString n

/-- Zero-padded four-digit decimal rendering. -/
def pad4 (n : Nat) : String :=
  if n < 10 then "000" ++ toString n
  else if n < 100 then "00" ++ toString n
  else if n < 1000 then "0" ++ toString n
  else toString n

/-- Civil date (year, month, day) from a count of days since 1970-01-01,
the standard era-based conversion used to model `Date.prototype.toISOString`. -/
def civilFromDays (z : Nat) : Nat × Nat × Nat :=
  let z' := z + 719468
  let era := z' / 146097
  let doe := z' % 146097
  let yoe := (doe - doe / 1460 + doe / 36524 - doe / 146096) / 365
  let y := yoe + era * 400
  let doy := doe - (365 * yoe + yoe / 4 - yoe / 100)
  let mp := (5 * doy + 2) / 153
  let d := doy - (153 * mp + 2) / 5 + 1
  let m := if mp < 10 then mp + 3 else mp - 9
  (if m ≤ 2 then y + 1 else y, m, d)

/-- Days since 1970-01-01 from a civil date (valid for dates from 1970 on). -/
def daysFromCivil (y m d : Nat) : Nat :=
  let y' := if m ≤ 2 then y - 1 else y
  let era := y' / 400
  let yoe := y' - era * 400
  let doy := (153 * (if 2 < m then m - 3 else m + 9) + 2) / 5 + d - 1
  let doe := yoe * 365 + yoe / 4 - yoe / 100 + doy
  era * 146097 + doe - 719468

/-- The `YYYY-MM-DD` rendering of a day count since the epoch. -/
def isoDateOfDay (day : Nat) : String :=
  match civilFromDays day with
  | (y, m, d) => pad4 y ++ "-" ++ pad2 m ++ "-" ++ pad2 d

/-- Models `new Date(ms).toISOString()` for a millisecond epoch timestamp. -/
def jsToISOString (ms : Nat) : String :=
  let day := ms / 86400000
  let rem := ms % 86400000
  isoDateOfDay day ++ "T" ++ pad2 (rem / 3600000) ++ ":" ++ pad2 (rem / 60000 % 60)
    ++ ":" ++ pad2 (rem / 1000 % 60) ++ "." ++ pad3 (rem % 1000) ++ "Z"

/-- Models `new Date(ms).toISOString().split('T')[0]`. -/
def isoDateOfMs (ms : Nat) : String :=
  isoDateOfDay (ms / 86400000)

/-- Consume exactly `n` decimal digits, returning their value and the rest. -/
def readDigits : Nat → List Char → Option (Nat × List Char)
  | 0, cs => some (0, cs)
  | _ + 1, [] => none
  | n + 1, c :: cs =>
    if c.isDigit then
      match readDigits n cs with
      | some (v, rest) => some ((c.toNat - 48) * 10 ^ n + v, rest)
      | none => none
    else none

/-- Consume one expected character. -/
def expectChar (c : Char) : List Char → Option (List Char)
  | [] => none
  | c0 :: cs => if c0 = c then some cs else none

/-- Parse `YYYY-MM-DD` returning the fields and the remaining characters. -/
def parseYMD (cs : List Char) : Option (Nat × Nat × Nat × List Char) := do
  let (y, r1) ← readDigits 4 cs
  let r2 ← expectChar '-' r1
  let (m, r3) ← readDigits 2 r2
  let r4 ← expectChar '-' r3
  let (d, r5) ← readDigits 2 r4
  pure (y, m, d, r5)

/-- Parse `HH:MM:SS` returning the fields and the remaining characters. -/
def parseHMS (cs : List Char) : Option (Nat × Nat × Nat × List Char) := do
  let (h, r1) ← readDigits 2 cs
  let r2 ← expectChar ':' r1
  let (mi, r3) ← readDigits 2 r2
  let r4 ← expectChar ':' r3
  let (se, r5) ← readDigits 2 r4
  pure (h, mi, se, r5)

/-- Epoch milliseconds of a civil date-time (UTC model of the server clock). -/
def msOfCivil (y mo d h mi se msv : Nat) : Nat :=
  daysFromCivil y mo d * 86400000 + h * 3600000 + mi * 60000 + se * 1000 + msv

/-- Bounds check mirroring the date strings `new Date` accepts. -/
def validCivil (y mo d h mi se : Nat) : Bool :=
  1970 ≤ y && 1 ≤ mo && mo ≤ 12 && 1 ≤ d && d ≤ 31 && h < 24 && mi < 60 && se < 60

/-- Models `new Date(string).getTime()` for the timestamp string formats the
system itself produces (`none` models an invalid date / `NaN`). The server
timezone is assumed UTC. -/
def parseDateMs (s : String) : Option Nat :=
  let cs := s.data
  match parseYMD cs with
  | some (y, mo, d, rest) =>
    if validCivil y mo d 0 0 0 then
      match rest with
      | [] => some (msOfCivil y mo d 0 0 0 0)
      | c :: rest2 =>
        if c = 'T' ∨ c = ' ' then
          match parseHMS rest2 with
          | some (h, mi, se, rest3) =>
            if validCivil y mo d h mi se then
              match rest3 with
              | [] => some (msOfCivil y mo d h mi se 0)
              | _ =>
                match expectChar '.' rest3 with
                | some r4 =>
                  match readDigits 3 r4 with
                  | some (msv, r5) =>
                    match expectChar 'Z' r5 with
                    | some [] => some (msOfCivil y mo d h mi se msv)
                    | _ => none
                  | none => none
                | none => none
            else none
          | none => none
        else none
    else none
  | none =>
    -- V8 legacy `MM/DD/YYYY HH:MM:SS` parse used by the sixth dateUtils pattern
    match (do
      let (mo, r1) ← readDigits 2 cs
      let r2 ← expectChar '/' r1
      let (d, r3) ← readDigits 2 r2
      let r4 ← expectChar '/' r3
      let (y, r5) ← readDigits 4 r4
      let r6 ← expectChar ' ' r5
      let (h, mi, se, r7) ← parseHMS r6
      if r7 = [] ∧ validCivil y mo d h mi se then pure (msOfCivil y mo d h mi se 0) else none) with
    | some v => some v
    | none => none

/-- Numeric value used where the source subtracts `Date` objects
(a `none` models `NaN`). -/
def jsDateVal (s : String) : Nat :=
  (parseDateMs s).getD 0

example : isoDateOfMs 0 = "1970-01-01" := by decide
example : jsToISOString 1000 = "1970-01-01T00:00:01.000Z" := by decide
example : parseDateMs "1970-01-01T00:00:01.000Z" = some 1000 := by decide
example : parseDateMs "10:00:05" = none := by decide

/-!
## Timestamp regular expressions

The source's timestamp regexes are fixed-shape character patterns. A shape
string uses `d` for `\d` and any other character for itself; `matchShape`
consumes a prefix of the input matching the shape (the regexes are built
from fixed-width pieces, so no backtracking choice exists).
-/

/-- Match a fixed shape against a prefix, returning the consumed characters. -/
def matchShape : List Char → List Char → Option (List Char)
  | [], _ => some []
  | _ :: _, [] => none
  | p :: ps, c :: cs =>
    if (p = 'd' && c.isDigit) || (p ≠ 'd' && p = c) then
      match matchShape ps cs with
      | some consumed => some (c :: consumed)
      | none => none
    else none

/-- Anchored match (regex `^...`): shape must match at the start. -/
def matchAnchored (shape : String) (s : String) : Option String :=
  (matchShape shape.data s.data).map String.mk

/-- Unanchored match: leftmost position where the shape matches. -/
def matchSearch (shape : String) : List Char → Option String
  | [] => (matchShape shape.data []).map String.mk
  | c :: cs =>
    match matchShape shape.data (c :: cs) with
    | some consumed => some (String.mk consumed)
    | none => matchSearch shape cs

/-- First pattern of an ordered list that matches, with its captured text.
Each pattern is `(shape, bracketed)`: a bracketed pattern is surrounded by
literal `[`/`]` which are consumed but not captured (regex group). -/
def firstPatternMatch : List (String × Bool) → String → Option String
  | [], _ => none
  | (shape, bracketed) :: rest, s =>
    let attempt :=
      if bracketed then
        match matchAnchored ("[" ++ shape ++ "]") s with
        | some consumed => some (String.mk ((consumed.data.drop 1).dropLast))
        | none => none
      else matchAnchored shape s
    match attempt with
    | some captured => some captured
    | none => firstPatternMatch rest s

/-- Shape of `\d{4}-\d{2}-\d{2} \d{2}:\d{2}:\d{2}`. -/
def shapeFullDateTime : String := "dddd-dd-dd dd:dd:dd"

/-- Shape of `\d{2}:\d{2}:\d{2}`. -/
def shapeTimeOnly : String := "dd:dd:dd"

/-- The four anchored timestamp patterns shared by
`LogAggregatorService.extractTimestamp` and
`DynamicLogService.parseLogLine` (in source order). -/
def coreTimestampPatterns : List (String × Bool) :=
  [(shapeFullDateTime, true), (shapeFullDateTime, false),
   (shapeTimeOnly, true), (shapeTimeOnly, false)]

/-- The captured timestamp of `LogAggregatorService.extractTimestamp`,
`none` when no pattern matches. -/
def aggTimestampMatch (line : String) : Option String :=
  firstPatternMatch coreTimestampPatterns line

/-- `LogAggregatorService.extractTimestamp`: first matching pattern wins;
no match falls back to `new Date().toISOString()`. -/
def aggExtractTimestamp (line : String) (nowMs : Nat) : String :=
  (aggTimestampMatch line).getD (jsToISOString nowMs)

/-- The captured timestamp of `dateUtils.parseLogTimestamp` (six patterns,
the last one unanchored), `none` when no pattern matches. -/
def parseLogTimestampMatch (line : String) : Option String :=
  match firstPatternMatch coreTimestampPatterns line with
  | some t => some t
  | none =>
    match matchAnchored "dddd-dd-ddTdd:dd:dd" line with
    | some t => some t
    | none => matchSearch "dd/dd/dddd dd:dd:dd" line.data

/-- `dateUtils.parseLogTimestamp`: falls back to the current time rendered
with `toISOString` when no pattern matches. -/
def parseLogTimestamp (line : String) (nowMs : Nat) : String :=
  (parseLogTimestampMatch line).getD (jsToISOString nowMs)

/-!
## Level detection

Three distinct level detectors exist on the parsing paths; each lower-cases
the line and tests keyword sets in order.
-/

/-- `config.errorDetection.keywords` from `src/config/index.js`. -/
def configErrorKeywords : List String :=
  ["error", "failed", "failure", "exception", "traceback",
   "warning", "timeout", "connection", "refused", "denied"]

/-- `config.errorDetection.criticalKeywords` from `src/config/index.js`. -/
def configCriticalKeywords : List String :=
  ["fatal", "critical", "crash", "abort", "emergency", "panic"]

/-- `LogParserService.detectLogLevel` (logParser.service.js). -/
def logParserDetectLogLevel (message : String) : String :=
  if configCriticalKeywords.any (fun k => jsIncludes (jsToLower message) k) then "CRITICAL"
  else if configErrorKeywords.any (fun k => jsIncludes (jsToLower message) k) then "ERROR"
  else if jsIncludes (jsToLower message) "warning" || jsIncludes (jsToLower message) "warn" then "WARNING"
  else if jsIncludes (jsToLower message) "info" || jsIncludes (jsToLower message) "starting" || jsIncludes (jsToLower message) "success" then "INFO"
  else "DEBUG"

/-- Keyword table of `DynamicLogService.detectLogLevel`, in object insertion
order (CRITICAL, ERROR, WARNING, INFO). -/
def dynamicLevelPatterns : List (String × List String) :=
  [("CRITICAL", ["fatal", "critical", "crash", "abort", "emergency", "panic"]),
   ("ERROR", ["error", "failed", "failure", "exception", "traceback", "stderr"]),
   ("WARNING", ["warning", "warn", "deprecated", "timeout", "retry"]),
   ("INFO", ["info", "starting", "started", "success", "completed", "finished"])]

/-- `DynamicLogService.detectLogLevel` (dynamicLog.service.js): first keyword
set containing a match wins, default DEBUG. -/
def dynamicDetectLogLevel (message : String) : String :=
  match dynamicLevelPatterns.find? (fun p => p.2.any (fun k => jsIncludes (jsToLower message) k)) with
  | some p => p.1
  | none => "DEBUG"

/-- `LogAggregatorService.detectLogLevel` (logAggregatorService.js). Note:
this detector has no CRITICAL tier. -/
def aggDetectLogLevel (line : String) : String :=
  if jsIncludes (jsToLower line) "error" || jsIncludes (jsToLower line) "failed" || jsIncludes (jsToLower line) "exception" then "ERROR"
  else if jsIncludes (jsToLower line) "warn" || jsIncludes (jsToLower line) "warning" then "WARNING"
  else if jsIncludes (jsToLower line) "info" || jsIncludes (jsToLower line) "success" then "INFO"
  else "DEBUG"

example : aggTimestampMatch "[2025-09-01 10:00:00] ERROR x" = some "2025-09-01 10:00:00" := by decide
example : aggTimestampMatch "10:00:05 foo" = some "10:00:05" := by decide
example : aggTimestampMatch "hello" = none := by decide
example : dynamicDetectLogLevel "fatal warning" = "CRITICAL" := by decide
example : logParserDetectLogLevel "fatal warning" = "CRITICAL" := by decide
example : aggDetectLogLevel "fatal warning" = "WARNING" := by decide

/-!
## DynamicLogService parsing path (dynamicLog.service.js)
-/

/-- Full consumed text (brackets included) of the first matching pattern,
modelling `match[0]`. -/
def firstPatternConsumed : List (String × Bool) → String → Option String
  | [], _ => none
  | (shape, bracketed) :: rest, s =>
    let full := if bracketed then "[" ++ shape ++ "]" else shape
    match matchAnchored full s with
    | some consumed => some consumed
    | none => firstPatternConsumed rest s

/-- `DynamicLogService.getLogColor`. -/
def getLogColor (level : String) : String :=
  if level == "CRITICAL" then "#ff0000"
  else if level == "ERROR" then "#ff6b6b"
  else if level == "WARNING" then "#ffa500"
  else if level == "INFO" then "#4dabf7"
  else if level == "DEBUG" then "#868e96"
  else "#212529"

/-- `DynamicLogService.getLogSeverity`. -/
def getLogSeverity (level : String) : Nat :=
  if level == "CRITICAL" then 5
  else if level == "ERROR" then 4
  else if level == "WARNING" then 3
  else if level == "INFO" then 2
  else if level == "DEBUG" then 1
  else 0

/-- A structured entry produced by `DynamicLogService.parseLogLine`. -/
structure DynLogEntry where
  id : String
  lineNumber : Nat
  timestamp : String
  message : String
  level : String
  raw : String
  fileName : String
  isError : Bool
  isWarning : Bool
  color : String
  severity : Nat
  deriving DecidableEq, Repr

/-- `DynamicLogService.parseLogLine`: extracts a timestamp (with
current-time fallback), strips a leading timestamp pattern from the
message, and classifies the level. -/
def parseLogLine (line : String) (lineNumber : Nat) (fileName : String) (nowMs : Nat) : DynLogEntry :=
  let timestamp := parseLogTimestamp line nowMs
  let message :=
    match firstPatternConsumed coreTimestampPatterns line with
    | some consumed => jsTrim (String.mk (line.data.drop consumed.length))
    | none => jsTrim line
  let level := dynamicDetectLogLevel message
  { id := fileName ++ "-" ++ toString lineNumber
    lineNumber := lineNumber
    timestamp := timestamp
    message := message
    level := level
    raw := line
    fileName := fileName
    isError := level == "ERROR" || level == "CRITICAL"
    isWarning := level == "WARNING"
    color := getLogColor level
    severity := getLogSeverity level }

/-- `DynamicLogService.parseLogContent`: split on newlines, drop blank
lines, parse each with its 1-based index, newest first. -/
def parseLogContent (content fileName : String) (nowMs : Nat) : List DynLogEntry :=
  let lines := (splitOnNewline content).filter (fun l => jsTrim l != "")
  (lines.enum.map (fun p => parseLogLine p.2 (p.1 + 1) fileName nowMs)).reverse

example : (parseLogContent "[10:00:05] ERROR boom\n\nok line" "a.log" 0).length = 2 := by decide
example : (parseLogLine "[10:00:05] ERROR boom" 1 "a.log" 0).timestamp = "10:00:05" := by decide
example : (parseLogLine "hello" 1 "a.log" 0).timestamp = "1970-01-01T00:00:00.000Z" := by decide

/-!
## File discovery (simpleLogService.js)

The filesystem is an explicit environment: a directory listing per path and
per-path file nodes (a `none` stat or `none` content models the
corresponding syscall failing).
-/

/-- `SimpleLogService.supportedExtensions`. -/
def supportedExtensions : List String :=
  [".log", ".txt", ".out", ".err"]

/-- Models Node's `path.extname` for plain file names: text from the last
dot, empty when there is no dot or the name starts with its only dot. -/
def extname (s : String) : String :=
  match s.data.reverse.findIdx? (fun c => c = '.') with
  | none => ""
  | some k =>
    let dotIdx := s.data.length - 1 - k
    if dotIdx = 0 then "" else String.mk (s.data.drop dotIdx)

/-- Models `path.join(dir, name)`. -/
def pathJoin (dir name : String) : String :=
  dir ++ "/" ++ name

/-- `fs.stat` data for one file (mtime in epoch milliseconds). -/
structure FileStatData where
  mtimeMs : Nat
  size : Nat
  deriving DecidableEq, Repr

/-- One entry of `fs.readdir(dir, { withFileTypes: true })`; a `none` stat
models a per-file `fs.stat` failure. -/
structure DirItem where
  name : String
  isFile : Bool
  stat : Option FileStatData
  deriving DecidableEq, Repr

/-- A file reachable by full path; `none` content models a read failure. -/
structure FsFile where
  stat : Option FileStatData
  content : Option String
  deriving DecidableEq, Repr

/-- The filesystem environment. -/
structure Fs where
  dirs : String → Option (List DirItem)
  files : String → Option FsFile

/-- The per-file record built by `scanDirectoryForCurrentDate`
(`sizeFormatted` is a float-formatting presentation field and is omitted). -/
structure FileInfo where
  fileName : String
  filePath : String
  size : Nat
  modified : String
  modifiedDate : String
  extension : String
  deriving DecidableEq, Repr

/-- Descending modification-time order used by the scan's final sort
(`new Date(b.modified) - new Date(a.modified)`). -/
def modifiedDesc (a b : FileInfo) : Prop :=
  jsDateVal b.modified ≤ jsDateVal a.modified

instance : DecidableRel modifiedDesc :=
  fun a b => Nat.decLe (jsDateVal b.modified) (jsDateVal a.modified)

instance : IsTotal FileInfo modifiedDesc :=
  ⟨fun a b => Nat.le_total (jsDateVal b.modified) (jsDateVal a.modified)⟩

instance : IsTrans FileInfo modifiedDesc :=
  ⟨fun _ _ _ h1 h2 => Nat.le_trans h2 h1⟩

/-- The record built for a matching file. -/
def mkFileInfo (dirPath : String) (it : DirItem) (st : FileStatData) (ext : String) : FileInfo :=
  { fileName := it.name
    filePath := pathJoin dirPath it.name
    size := st.size
    modified := jsToISOString st.mtimeMs
    modifiedDate := isoDateOfMs st.mtimeMs
    extension := ext }

/-- The per-item selection of `scanDirectoryForCurrentDate`: regular files
with a supported extension whose stat succeeds and whose modified calendar
date equals the target; anything else (including stat errors) is skipped. -/
def discoverySelect (dirPath targetDateStr : String) (it : DirItem) : Option FileInfo :=
  if it.isFile then
    if supportedExtensions.contains (jsToLower (extname it.name)) then
      match it.stat with
      | some st =>
        if isoDateOfMs st.mtimeMs = targetDateStr then
          some (mkFileInfo dirPath it st (jsToLower (extname it.name)))
        else none
      | none => none
    else none
  else none

/-- `SimpleLogService.scanDirectoryForCurrentDate`: select matching files
and sort by modification time, newest first. -/
def scanDirectoryForCurrentDate (items : List DirItem) (dirPath targetDateStr : String) : List FileInfo :=
  List.insertionSort modifiedDesc (items.filterMap (discoverySelect dirPath targetDateStr))

/-- Outcome of `SimpleLogService.findTodaysFiles`. -/
inductive FindResult where
  | failure (error : String)
  | ok (searchDate : String) (files : List FileInfo)
  deriving DecidableEq, Repr

/-- `SimpleLogService.findTodaysFiles`: default the target date to now,
fail when the base path does not exist, otherwise scan. The target date is
modelled as the epoch value the provided date string parses to. -/
def findTodaysFiles (fs : Fs) (basePath : String) (targetDate : Option Nat) (nowMs : Nat) : FindResult :=
  let searchMs := targetDate.getD nowMs
  let dateStr := isoDateOfMs searchMs
  match fs.dirs basePath with
  | none => .failure ("Path not found: " ++ basePath)
  | some items => .ok dateStr (scanDirectoryForCurrentDate items basePath dateStr)

/-- Lines produced by `SimpleLogService.readFileContent`: split on
newlines, strip trailing whitespace, drop empty lines. -/
def processContentLines (content : String) : List String :=
  ((splitOnNewline content).map jsTrimEnd).filter (fun l => l.length > 0)

/-- `SimpleLogService.readFileContent`, reduced to the fields its caller
uses: the processed lines on success, `none` on any stat/read failure. -/
def readFileContent (fs : Fs) (filePath : String) : Option (List String) :=
  match fs.files filePath with
  | none => none
  | some f =>
    match f.stat with
    | none => none
    | some _ =>
      match f.content with
      | none => none
      | some c => some (processContentLines c)

example : extname "a.LOG" = ".LOG" := by decide
example : jsToLower (extname "a.LOG") = ".log" := by decide
example : extname "noext" = "" := by decide

/-!
## Log aggregation (logAggregatorService.js)
-/

/-- One alias registration (`userAliasService` descriptor, read-only here). -/
structure AliasInfo where
  aliasName : String
  basePath : String
  deriving DecidableEq, Repr

/-- Environment of the aggregator: filesystem plus the alias registry. -/
structure AggEnv where
  fs : Fs
  allUsers : List String
  userAliases : String → List AliasInfo

/-- The aggregation request config. Every field is optional; `none` models
an absent property so the source's destructuring defaults apply. `date` is
modelled as the epoch value the supplied date string denotes. -/
structure AggConfig where
  userIds : Option (List String) := none
  aliasNames : Option (List String) := none
  date : Option Nat := none
  logLevels : Option (List String) := none
  limit : Option Nat := none
  offset : Option Nat := none
  groupBy : Option String := none
  sortBy : Option String := none
  sortOrder : Option String := none
  includeMetadata : Option Bool := none
  enableCache : Option Bool := none
  deriving DecidableEq, Repr

/-- A structured log entry built by `processUserLogs` (the nested
`metadata` object is flattened; `fileSizeFormatted` is presentation-only
float formatting and is omitted). -/
structure AggLogEntry where
  id : String
  userId : String
  userName : String
  aliasName : String
  aliasPath : String
  fileName : String
  filePath : String
  lineNumber : Nat
  content : String
  rawContent : String
  timestamp : String
  logLevel : String
  fileModified : String
  fileSize : Nat
  source : String
  extractedAt : String
  isError : Bool
  isWarning : Bool
  hasStackTrace : Bool
  lineLength : Nat
  deriving DecidableEq, Repr

/-- Entry construction for one raw line (0-based index `idx`). -/
def mkAggLogEntry (userId : String) (al : AliasInfo) (file : FileInfo) (idx : Nat) (line : String) (nowMs : Nat) : AggLogEntry :=
  { id := userId ++ "-" ++ al.aliasName ++ "-" ++ file.fileName ++ "-" ++ toString idx
    userId := userId
    userName := userId
    aliasName := al.aliasName
    aliasPath := al.basePath
    fileName := file.fileName
    filePath := file.filePath
    lineNumber := idx + 1
    content := line
    rawContent := line
    timestamp := aggExtractTimestamp line nowMs
    logLevel := aggDetectLogLevel line
    fileModified := file.modified
    fileSize := file.size
    source := userId ++ "/" ++ al.aliasName ++ "/" ++ file.fileName
    extractedAt := jsToISOString nowMs
    isError := aggDetectLogLevel line == "ERROR"
    isWarning := aggDetectLogLevel line == "WARNING"
    hasStackTrace := jsIncludes line "at " && jsIncludes line "("
    lineLength := line.length }

/-- All entries of one file's processed lines. -/
def userFileEntries (userId : String) (al : AliasInfo) (file : FileInfo) (lines : List String) (nowMs : Nat) : List AggLogEntry :=
  lines.enum.map (fun p => mkAggLogEntry userId al file p.1 p.2 nowMs)

/-- Result of `processUserLogs` for one user. -/
structure UserResult where
  success : Bool
  error : String
  logs : List AggLogEntry
  filesCount : Nat
  deriving DecidableEq, Repr

/-- `LogAggregatorService.processUserLogs`: resolve the user's aliases,
restrict to the requested alias names, then per alias discover the day's
files and per file read and convert lines; discovery failures and
unreadable files are skipped silently (`logLevels` is destructured by the
source but never used here). -/
def processUserLogs (env : AggEnv) (nowMs : Nat) (userId : String) (date : Option Nat) (aliasNames : List String) (_logLevels : List String) : UserResult :=
  let userAliases := env.userAliases userId
  if userAliases.isEmpty then
    { success := false, error := "No aliases found for user " ++ userId, logs := [], filesCount := 0 }
  else
    let targetAliases :=
      if aliasNames.isEmpty then userAliases
      else userAliases.filter (fun a => aliasNames.contains a.aliasName)
    if targetAliases.isEmpty then
      { success := false, error := "No matching aliases found for user " ++ userId, logs := [], filesCount := 0 }
    else
      let acc := targetAliases.foldl (fun acc al =>
        match findTodaysFiles env.fs al.basePath date nowMs with
        | .failure _ => acc
        | .ok _ files =>
          if 0 < files.length then
            files.foldl (fun acc2 file =>
              match readFileContent env.fs file.filePath with
              | none => acc2
              | some lines => (acc2.1 ++ userFileEntries userId al file lines nowMs, acc2.2 + 1)) acc
          else acc) (([] : List AggLogEntry), (0 : Nat))
      { success := true, error := "", logs := acc.1, filesCount := acc.2 }

/-- `levelPriority` table inside `sortLogs` (no CRITICAL tier, `|| 0`). -/
def levelPriority (lv : String) : Nat :=
  if lv == "ERROR" then 4
  else if lv == "WARNING" then 3
  else if lv == "INFO" then 2
  else if lv == "DEBUG" then 1
  else 0

/-- Models `a || b` on strings (empty string is falsy). -/
def jsOrStr (a b : String) : String :=
  if a == "" then b else a

/-- Models `new Date(x) - new Date(y)` inside a sort comparator: `NaN`
arithmetic makes the comparator report a tie. -/
def dateCompareNum (x y : String) : Int :=
  match parseDateMs x, parseDateMs y with
  | some m, some n => (m : Int) - (n : Int)
  | _, _ => 0

/-- Byte-order model of `localeCompare` (the ICU collation of the runtime
is environment-dependent; the claims never exercise these branches). -/
def localeCompareModel (a b : String) : Int :=
  if a < b then -1 else if b < a then 1 else 0

/-- The `switch (sortBy)` comparator of `sortLogs` (the `timestamp` case
and the `default` case are the same expression). -/
def sortComparison (sortBy : String) (a b : AggLogEntry) : Int :=
  if sortBy == "user" then localeCompareModel a.userId b.userId
  else if sortBy == "alias" then localeCompareModel a.aliasName b.aliasName
  else if sortBy == "level" then (levelPriority a.logLevel : Int) - (levelPriority b.logLevel : Int)
  else if sortBy == "file" then localeCompareModel a.fileName b.fileName
  else dateCompareNum (jsOrStr a.timestamp a.fileModified) (jsOrStr b.timestamp b.fileModified)

/-- `LogAggregatorService.sortLogs`: stable sort by the comparator times
the direction multiplier. -/
def sortLogs (logs : List AggLogEntry) (sortBy sortOrder : String) : List AggLogEntry :=
  let m : Int := if sortOrder == "desc" then -1 else 1
  List.insertionSort (fun a b => sortComparison sortBy a b * m ≤ 0) logs

/-- One group's payload in `groupLogs`. -/
structure GroupData where
  logs : List AggLogEntry
  count : Nat
  errors : Nat
  warnings : Nat
  deriving DecidableEq, Repr

/-- The `switch (groupBy)` key; grouping by `date` calls `toISOString` on
the parsed timestamp, which throws on an unparseable one (modelled by
`Except.error`), while `hour` yields a `NaN:00` key instead. -/
def groupKeyOf (groupBy : String) (log : AggLogEntry) : Except String String :=
  if groupBy == "user" then .ok log.userId
  else if groupBy == "alias" then .ok (log.userId ++ "/" ++ log.aliasName)
  else if groupBy == "level" then .ok log.logLevel
  else if groupBy == "file" then .ok log.fileName
  else if groupBy == "hour" then
    .ok (match parseDateMs (jsOrStr log.timestamp log.fileModified) with
      | some ms => toString (ms / 3600000 % 24) ++ ":00"
      | none => "NaN:00")
  else if groupBy == "date" then
    match parseDateMs (jsOrStr log.timestamp log.fileModified) with
    | some ms => .ok (isoDateOfMs ms)
    | none => .error "Invalid time value"
  else .ok "all"

/-- Append an entry to its bucket, preserving first-seen key order
(JS object insertion order). -/
def bucketAdd (m : List (String × List AggLogEntry)) (k : String) (e : AggLogEntry) : List (String × List AggLogEntry) :=
  if m.any (fun p => p.1 == k) then m.map (fun p => if p.1 == k then (p.1, p.2 ++ [e]) else p)
  else m ++ [(k, [e])]

/-- `LogAggregatorService.groupLogs`: bucket the entries, then decorate
each bucket with its counts. -/
def groupLogs (logs : List AggLogEntry) (groupBy : String) : Except String (List (String × GroupData)) := do
  let buckets ← logs.foldlM (fun m log => (groupKeyOf groupBy log).map (fun k => bucketAdd m k log)) []
  pure (buckets.map (fun p =>
    (p.1, { logs := p.2
            count := p.2.length
            errors := (p.2.filter (fun l => l.logLevel == "ERROR")).length
            warnings := (p.2.filter (fun l => l.logLevel == "WARNING")).length })))

/-- `x || d` for the numeric config fields of the cache key (0 is falsy). -/
def jsOrNum (o : Option Nat) (d : Nat) : Nat :=
  match o with
  | none => d
  | some n => if n = 0 then d else n

/-- Lexicographic comparison of character lists (code-unit order), the
ordering JS `Array.prototype.sort()` applies to strings by default. -/
def charListLe : List Char → List Char → Bool
  | [], _ => true
  | _ :: _, [] => false
  | a :: as, b :: bs => if a < b then true else if b < a then false else charListLe as bs

/-- The string order used by the default JS sort. -/
def strLe (a b : String) : Prop :=
  charListLe a.data b.data = true

instance : DecidableRel strLe :=
  fun a b => Bool.decEq (charListLe a.data b.data) true

/-- JS `Array.prototype.sort()` default string sort. -/
def sortStrings (l : List String) : List String :=
  List.insertionSort strLe l

/-- `list?.sort().join(',') || 'all'` (an absent list and an empty join
both produce `"all"`). -/
def keyListPart (o : Option (List String)) : String :=
  match o with
  | none => "all"
  | some l =>
    let j := String.intercalate "," (sortStrings l)
    if j == "" then "all" else j

/-- `config.date || 'current'` (the date rendered canonically). -/
def keyDatePart (o : Option Nat) : String :=
  match o with
  | none => "current"
  | some ms => isoDateOfMs ms

/-- `LogAggregatorService.generateCacheKey`: only `userIds`, `aliasNames`,
`date`, `logLevels`, `limit` and `offset` are serialized. -/
def generateCacheKey (cfg : AggConfig) : String :=
  keyListPart cfg.userIds ++ "|" ++ keyListPart cfg.aliasNames ++ "|"
    ++ keyDatePart cfg.date ++ "|" ++ keyListPart cfg.logLevels ++ "|"
    ++ toString (jsOrNum cfg.limit 1000) ++ "|" ++ toString (jsOrNum cfg.offset 0)

example : generateCacheKey {} = "all|all|current|all|1000|0" := by decide
example : generateCacheKey { userIds := some ["b", "a"] } = "a,b|all|current|all|1000|0" := by decide

/-!
## Aggregation pipeline and result cache
-/

/-- A successful aggregation payload (`fromCache` is the flag the source
spreads onto cache hits; a fresh result carries `false`, modelling the
absent/falsy property). -/
structure FilterCounts where
  beforeFiltering : Nat
  afterFiltering : Nat
  levelFiltering : Nat
  aliasFiltering : Nat
  deriving DecidableEq, Repr

/-- `aggregationResult.metadata`. -/
structure AggMetadata where
  totalUsers : Nat
  processedUsers : Nat
  totalFiles : Nat
  totalLogs : Nat
  groupedData : List (String × GroupData)
  filterCounts : FilterCounts
  deriving DecidableEq, Repr

/-- The `pagination` block of a result. -/
structure AggPagination where
  total : Nat
  limit : Nat
  offset : Nat
  hasMore : Bool
  nextOffset : Option Nat
  deriving DecidableEq, Repr

/-- The success payload of `getAggregatedLogs`. -/
structure AggResult where
  logs : List AggLogEntry
  metadata : AggMetadata
  pagination : AggPagination
  cfg : AggConfig
  executedAt : String
  fromCache : Bool
  deriving DecidableEq, Repr

/-- Outcome of a `getAggregatedLogs` call. -/
inductive AggOutcome where
  | ok (r : AggResult)
  | err (error : String)
  deriving DecidableEq, Repr

/-- One cached value with its write time. -/
structure CacheEntry where
  data : AggResult
  timestamp : Nat
  deriving DecidableEq, Repr

/-- The service's `Map` cache, as an insertion-ordered association list. -/
structure AggState where
  cache : List (String × CacheEntry)
  deriving DecidableEq, Repr

/-- `Map.prototype.get`. -/
def mapGet : List (String × CacheEntry) → String → Option CacheEntry
  | [], _ => none
  | (k0, v0) :: rest, k => if k0 = k then some v0 else mapGet rest k

/-- `Map.prototype.set` (updates in place, appends new keys). -/
def mapSet : List (String × CacheEntry) → String → CacheEntry → List (String × CacheEntry)
  | [], k, v => [(k, v)]
  | (k0, v0) :: rest, k, v =>
    if k0 = k then (k0, v) :: rest else (k0, v0) :: mapSet rest k v

/-- `this.cacheTimeout` (one minute). -/
def cacheTimeoutMs : Nat := 60000

/-- The cache probe at the top of `getAggregatedLogs`: a hit requires
caching enabled, the key present, and the entry younger than the TTL
(checked lazily at lookup; stale entries are left in place). -/
def cacheLookup (st : AggState) (cfg : AggConfig) (nowMs : Nat) : Option AggResult :=
  if cfg.enableCache.getD true then
    match mapGet st.cache (generateCacheKey cfg) with
    | some c => if nowMs - c.timestamp < cacheTimeoutMs then some c.data else none
    | none => none
  else none

/-- `userIds.length > 0 ? userIds : this.userAliasService.getAllUsers()`. -/
def aggTargetUsers (env : AggEnv) (cfg : AggConfig) : List String :=
  let userIds := cfg.userIds.getD []
  if userIds.isEmpty then env.allUsers else userIds

/-- The per-user results, in target-user order. -/
def aggPerUserResults (env : AggEnv) (nowMs : Nat) (cfg : AggConfig) : List UserResult :=
  (aggTargetUsers env cfg).map
    (fun u => processUserLogs env nowMs u cfg.date (cfg.aliasNames.getD []) (cfg.logLevels.getD []))

/-- Concatenation of the successful users' entries (failed users are only
warned about on the console and skipped). -/
def aggAllLogs (env : AggEnv) (nowMs : Nat) (cfg : AggConfig) : List AggLogEntry :=
  ((aggPerUserResults env nowMs cfg).filter (fun r => r.success)).foldl (fun acc r => acc ++ r.logs) []

/-- Level filtering (identity when `logLevels` is empty). -/
def aggFiltered (env : AggEnv) (nowMs : Nat) (cfg : AggConfig) : List AggLogEntry :=
  let lls := cfg.logLevels.getD []
  let logs := aggAllLogs env nowMs cfg
  if lls.isEmpty then logs else logs.filter (fun l => lls.contains l.logLevel)

/-- The filtered entries in requested order: the flat sequence pagination
slices. -/
def aggSorted (env : AggEnv) (nowMs : Nat) (cfg : AggConfig) : List AggLogEntry :=
  sortLogs (aggFiltered env nowMs cfg) (cfg.sortBy.getD "timestamp") (cfg.sortOrder.getD "desc")

/-- The grouping step (`if (groupBy && includeMetadata)`). -/
def aggGrouped (env : AggEnv) (nowMs : Nat) (cfg : AggConfig) : Except String (List (String × GroupData)) :=
  let groupBy := cfg.groupBy.getD "timestamp"
  if !(groupBy == "") && cfg.includeMetadata.getD true then
    groupLogs (aggSorted env nowMs cfg) groupBy
  else .ok []

/-- Models `array.slice(offset, offset + limit)` for non-negative indices. -/
def jsSlice (l : List AggLogEntry) (offset limit : Nat) : List AggLogEntry :=
  (l.drop offset).take limit

/-- The computation behind a cache miss of `getAggregatedLogs`: fails when
no user resolves; a throw inside grouping is caught by the surrounding
`try` and also becomes an error outcome; everything else yields a result. -/
def aggCompute (env : AggEnv) (nowMs : Nat) (cfg : AggConfig) : AggOutcome :=
  let targetUsers := aggTargetUsers env cfg
  if targetUsers.isEmpty then .err "No users found in system"
  else
    match aggGrouped env nowMs cfg with
    | .error e => .err e
    | .ok grouped =>
      let allLogs := aggAllLogs env nowMs cfg
      let filteredLogs := aggFiltered env nowMs cfg
      let sorted := aggSorted env nowMs cfg
      let lls := cfg.logLevels.getD []
      let limit := cfg.limit.getD 1000
      let offset := cfg.offset.getD 0
      let successes := (aggPerUserResults env nowMs cfg).filter (fun r => r.success)
      .ok
        { logs := jsSlice sorted offset limit
          metadata :=
            { totalUsers := targetUsers.length
              processedUsers := successes.length
              totalFiles := successes.foldl (fun acc r => acc + r.filesCount) 0
              totalLogs := filteredLogs.length
              groupedData := grouped
              filterCounts :=
                { beforeFiltering := allLogs.length
                  afterFiltering := filteredLogs.length
                  levelFiltering := if lls.isEmpty then 0 else filteredLogs.length
                  aliasFiltering := 0 } }
          pagination :=
            { total := sorted.length
              limit := limit
              offset := offset
              hasMore := decide (offset + limit < sorted.length)
              nextOffset := if offset + limit < sorted.length then some (offset + limit) else none }
          cfg := cfg
          executedAt := jsToISOString nowMs
          fromCache := false }

/-- `LogAggregatorService.getAggregatedLogs`: serve a fresh cache hit with
the `fromCache` flag, otherwise compute; only successful results are
written back to the cache (when caching is enabled). -/
def getAggregatedLogs (st : AggState) (env : AggEnv) (nowMs : Nat) (cfg : AggConfig) : AggOutcome × AggState :=
  match cacheLookup st cfg nowMs with
  | some d => (.ok { d with fromCache := true }, st)
  | none =>
    match aggCompute env nowMs cfg with
    | .ok r =>
      (.ok r,
        if cfg.enableCache.getD true then
          { cache := mapSet st.cache (generateCacheKey cfg) { data := r, timestamp := nowMs } }
        else st)
    | .err e => (.err e, st)

/-- `LogAggregatorService.clearCache`. -/
def clearCache (_st : AggState) : AggState :=
  { cache := [] }

/-- The `fromCache` flag of an outcome (an error outcome carries none,
which is falsy). -/
def outcomeFromCache : AggOutcome → Bool
  | .ok r => r.fromCache
  | .err _ => false

/-!
## File watcher retry state machine (FileWatcherService)

Event emission and timers are made explicit: `failedEvents` /
`pathNotFoundEvents` count the `WATCHER_FAILED` / `SERVICE_PATH_NOT_FOUND`
broadcasts for one service, `pendingRetry` records whether a re-subscribe
`setTimeout` is outstanding, and `retryCount` is the service's entry in the
`retryAttempts` map (`none` when absent).
-/

/-- `this.maxRetries`. -/
def maxRetries : Nat := 3

/-- The per-service watcher bookkeeping. -/
structure WatcherSt where
  retryCount : Option Nat := none
  failedEvents : Nat := 0
  pathNotFoundEvents : Nat := 0
  pendingRetry : Bool := false
  watching : Bool := false
  deriving DecidableEq, Repr

/-- The initial state (service never watched). -/
def watcherInit : WatcherSt := {}

/-- `FileWatcherService.handleWatcherError`: at or above the max the entry
is deleted and a single terminal `WATCHER_FAILED` is broadcast with no
retry scheduled; below it the counter is incremented and a delayed
re-subscribe is scheduled (its guard `get(service) <= maxRetries` passes,
since the counter was just set to at most `maxRetries`). -/
def handleWatcherError (s : WatcherSt) : WatcherSt :=
  let currentRetries := s.retryCount.getD 0
  if maxRetries ≤ currentRetries then
    { s with retryCount := none, failedEvents := s.failedEvents + 1, pendingRetry := false }
  else
    { s with retryCount := some (currentRetries + 1),
             pendingRetry := decide (currentRetries + 1 ≤ maxRetries) }

/-- `FileWatcherService.watchService`: a missing directory broadcasts one
`SERVICE_PATH_NOT_FOUND` and returns without touching the retry counter or
subscribing; a throw during watcher setup lands in `handleWatcherError`;
otherwise the watcher subscribes. -/
def watchService (pathExistsB setupThrows : Bool) (s : WatcherSt) : WatcherSt :=
  if !pathExistsB then
    { s with pathNotFoundEvents := s.pathNotFoundEvents + 1 }
  else if setupThrows then handleWatcherError s
  else { s with watching := true }

/-- State after `n` consecutive subscribe failures (each scheduled retry
re-subscribes and fails again, surfacing as the next error notification). -/
def consecutiveFailures : Nat → WatcherSt
  | 0 => watcherInit
  | n + 1 => handleWatcherError (consecutiveFailures n)

example : (consecutiveFailures 3).failedEvents = 0 := by decide
example : (consecutiveFailures 3).pendingRetry = true := by decide
example : (consecutiveFailures 4).failedEvents = 1 := by decide
example : (consecutiveFailures 4).pendingRetry = false := by decide

/-!
## Helper lemmas
-/

theorem charListLe_total : ∀ a b : List Char, charListLe a b = true ∨ charListLe b a = true := by
  intro a
  induction a with
  | nil => intro b; left; rfl
  | cons x xs ih =>
    intro b
    cases b with
    | nil => right; rfl
    | cons y ys =>
      by_cases h1 : x < y
      · left; simp [charListLe, h1]
      · by_cases h2 : y < x
        · right; simp [charListLe, h2]
        · rcases ih ys with h | h
          · left; simp [charListLe, h1, h2, h]
          · right; simp [charListLe, h1, h2, h]

theorem charListLe_trans : ∀ a b c : List Char,
    charListLe a b = true → charListLe b c = true → charListLe a c = true := by
  intro a
  induction a with
  | nil => intro b c _ _; rfl
  | cons x xs ih =>
    intro b c hab hbc
    cases b with
    | nil => simp [charListLe] at hab
    | cons y ys =>
      cases c with
      | nil => simp [charListLe] at hbc
      | cons z zs =>
        simp only [charListLe] at hab hbc ⊢
        by_cases hxz : x < z
        · simp [hxz]
        · by_cases hzx : z < x
          · exfalso
            by_cases hxy : x < y
            · by_cases hyz : y < z
              · exact hxz (lt_trans hxy hyz)
              · by_cases hzy : z < y
                · simp [hxy, hyz, hzy] at hbc
                · have hyzeq : y = z := le_antisymm (not_lt.mp hzy) (not_lt.mp hyz)
                  exact hxz (hyzeq ▸ hxy)
            · by_cases hyx : y < x
              · simp [hxy, hyx] at hab
              · have hxyeq : x = y := le_antisymm (not_lt.mp hyx) (not_lt.mp hxy)
                by_cases hyz : y < z
                · exact hxz (hxyeq ▸ hyz)
                · by_cases hzy : z < y
                  · simp [hyz, hzy] at hbc
                  · have hyzeq : y = z := le_antisymm (not_lt.mp hzy) (not_lt.mp hyz)
                    exact (lt_irrefl x) (by rw [hxyeq, hyzeq] at hzx ⊢; exact hzx)
          · have hxzeq : x = z := le_antisymm (not_lt.mp hzx) (not_lt.mp hxz)
            simp only [hxz, hzx, if_false]
            by_cases hxy : x < y
            · by_cases hyz : y < z
              · exact absurd (lt_trans hxy hyz) hxz
              · by_cases hzy : z < y
                · simp [hyz, hzy] at hbc
                · have hyzeq : y = z := le_antisymm (not_lt.mp hzy) (not_lt.mp hyz)
                  exact absurd (hyzeq ▸ hxy) hxz
            · by_cases hyx : y < x
              · simp [hxy, hyx] at hab
              · have hxyeq : x = y := le_antisymm (not_lt.mp hyx) (not_lt.mp hxy)
                by_cases hyz : y < z
                · exact absurd (hxyeq ▸ hyz) hxz
                · by_cases hzy : z < y
                  · exact absurd (show x < y by rw [hxzeq]; exact hzy) hxy
                  · simp only [hxy, hyx, if_false] at hab
                    simp only [hyz, hzy, if_false] at hbc
                    exact ih ys zs hab hbc

theorem charListLe_antisymm : ∀ a b : List Char,
    charListLe a b = true → charListLe b a = true → a = b := by
  intro a
  induction a with
  | nil =>
    intro b _ hba
    cases b with
    | nil => rfl
    | cons y ys => simp [charListLe] at hba
  | cons x xs ih =>
    intro b hab hba
    cases b with
    | nil => simp [charListLe] at hab
    | cons y ys =>
      simp only [charListLe] at hab hba
      by_cases hxy : x < y
      · have hyx : ¬ y < x := asymm hxy
        simp [hxy, hyx] at hba
      · by_cases hyx : y < x
        · simp [hxy, hyx] at hab
        · have hxyeq : x = y := le_antisymm (not_lt.mp hyx) (not_lt.mp hxy)
          simp only [hxy, hyx, if_false] at hab hba
          rw [hxyeq, ih ys hab hba]

instance : IsTotal String strLe :=
  ⟨fun a b => charListLe_total a.data b.data⟩

instance : IsTrans String strLe :=
  ⟨fun a b c => charListLe_trans a.data b.data c.data⟩

instance : IsAntisymm String strLe := by
  refine ⟨fun a b h1 h2 => ?_⟩
  cases a with
  | mk da =>
    cases b with
    | mk db => exact congrArg String.mk (charListLe_antisymm da db h1 h2)

theorem mapGet_mapSet_self (m : List (String × CacheEntry)) (k : String) (v : CacheEntry) :
    mapGet (mapSet m k v) k = some v := by
  induction m with
  | nil => simp [mapSet, mapGet]
  | cons p rest ih =>
    by_cases h : p.1 = k
    · simp [mapSet, mapGet, h]
    · simp [mapSet, mapGet, h, ih]

theorem mapGet_mapSet_ne (m : List (String × CacheEntry)) (k k' : String) (v : CacheEntry)
    (h : k' ≠ k) : mapGet (mapSet m k v) k' = mapGet m k' := by
  have hk : ¬ k = k' := fun he => h he.symm
  induction m with
  | nil => simp [mapSet, mapGet, hk]
  | cons p rest ih =>
    by_cases h0 : p.1 = k
    · simp [mapSet, mapGet, h0, hk]
    · by_cases h1 : p.1 = k'
      · have hne : ¬ k' = k := h
        simp [mapSet, mapGet, h0, h1, hne]
      · simp [mapSet, mapGet, h0, h1, ih]

theorem jsSlice_length (l : List AggLogEntry) (o k : Nat) :
    (jsSlice l o k).length = min k (l.length - o) := by
  simp [jsSlice]

theorem jsSlice_flatten_range (l : List AggLogEntry) (k : Nat) :
    ∀ n, ((List.range n).map (fun i => jsSlice l (i * k) k)).flatten = l.take (n * k) := by
  intro n
  induction n with
  | zero => simp
  | succ n ih =>
    rw [List.range_succ, List.map_append, List.flatten_append, ih]
    simp only [List.map_cons, List.map_nil, List.flatten_cons, List.flatten_nil, List.append_nil]
    rw [jsSlice, ← List.take_add]
    congr 1
    ring

theorem snd_mem_of_mem_enumFrom {α : Type} : ∀ (l : List α) (n : Nat) (p : Nat × α),
    p ∈ l.enumFrom n → p.2 ∈ l := by
  intro l
  induction l with
  | nil => intro n p h; simp [List.enumFrom] at h
  | cons x xs ih =>
    intro n p h
    simp only [List.enumFrom, List.mem_cons] at h
    rcases h with h | h
    · subst h; exact List.mem_cons_self _ _
    · exact List.mem_cons_of_mem _ (ih (n + 1) p h)

theorem aggCompute_ok_spec (env : AggEnv) (nowMs : Nat) (cfg : AggConfig) (r : AggResult)
    (h : aggCompute env nowMs cfg = .ok r) :
    r.logs = jsSlice (aggSorted env nowMs cfg) (cfg.offset.getD 0) (cfg.limit.getD 1000) ∧
    r.pagination.total = (aggSorted env nowMs cfg).length ∧
    r.pagination.limit = cfg.limit.getD 1000 ∧
    r.pagination.offset = cfg.offset.getD 0 ∧
    r.fromCache = false := by
  unfold aggCompute at h
  by_cases he : (aggTargetUsers env cfg).isEmpty = true
  · simp [he] at h
  · simp only [he, if_false, Bool.false_eq_true] at h
    cases hg : aggGrouped env nowMs cfg with
    | error e => rw [hg] at h; simp at h
    | ok grouped =>
      rw [hg] at h
      injection h with h2
      subst h2
      exact ⟨rfl, rfl, rfl, rfl, rfl⟩

theorem aggCompute_err_spec (env : AggEnv) (nowMs : Nat) (cfg : AggConfig) (e : String)
    (h : aggCompute env nowMs cfg = .err e) :
    (aggTargetUsers env cfg = [] ∧ e = "No users found in system") ∨
      aggGrouped env nowMs cfg = .error e := by
  unfold aggCompute at h
  by_cases he : (aggTargetUsers env cfg).isEmpty = true
  · rw [if_pos he] at h
    injection h with h2
    exact Or.inl ⟨List.isEmpty_iff.mp he, h2.symm⟩
  · simp only [he, if_false, Bool.false_eq_true] at h
    cases hg : aggGrouped env nowMs cfg with
    | error e0 =>
      rw [hg] at h
      injection h with h2
      cases h2
      exact Or.inr rfl
    | ok grouped => rw [hg] at h; simp at h

theorem getAgg_fresh_spec (st : AggState) (env : AggEnv) (nowMs : Nat) (cfg : AggConfig)
    (r : AggResult) (st2 : AggState)
    (h : getAggregatedLogs st env nowMs cfg = (.ok r, st2)) (hfc : r.fromCache = false) :
    aggCompute env nowMs cfg = .ok r ∧
    st2 = (if cfg.enableCache.getD true then
             { cache := mapSet st.cache (generateCacheKey cfg) { data := r, timestamp := nowMs } }
           else st) := by
  unfold getAggregatedLogs at h
  split at h
  · rw [Prod.mk.injEq] at h
    obtain ⟨h1, _⟩ := h
    injection h1 with h1
    rw [← h1] at hfc
    simp at hfc
  · split at h
    · rename_i r0 ha
      rw [Prod.mk.injEq] at h
      obtain ⟨h1, h2⟩ := h
      injection h1 with h1
      subst h1
      exact ⟨ha, h2.symm⟩
    · rw [Prod.mk.injEq] at h
      obtain ⟨h1, _⟩ := h
      exact absurd h1 (by simp)

theorem getAgg_err_spec (st : AggState) (env : AggEnv) (nowMs : Nat) (cfg : AggConfig)
    (e : String) (st2 : AggState)
    (h : getAggregatedLogs st env nowMs cfg = (.err e, st2)) :
    aggCompute env nowMs cfg = .err e ∧ st2 = st := by
  unfold getAggregatedLogs at h
  split at h
  · rw [Prod.mk.injEq] at h
    obtain ⟨h1, _⟩ := h
    exact absurd h1 (by simp)
  · split at h
    · rw [Prod.mk.injEq] at h
      obtain ⟨h1, _⟩ := h
      exact absurd h1 (by simp)
    · rename_i e0 ha
      rw [Prod.mk.injEq] at h
      obtain ⟨h1, h2⟩ := h
      injection h1 with h1
      exact ⟨by rw [← h1]; exact ha, h2.symm⟩

theorem getAgg_cache_hit (st : AggState) (env : AggEnv) (nowMs : Nat) (cfg : AggConfig)
    (c : CacheEntry)
    (hen : cfg.enableCache.getD true = true)
    (hm : mapGet st.cache (generateCacheKey cfg) = some c)
    (ht : nowMs - c.timestamp < cacheTimeoutMs) :
    getAggregatedLogs st env nowMs cfg = (.ok { c.data with fromCache := true }, st) := by
  unfold getAggregatedLogs cacheLookup
  rw [hen, hm]
  simp [ht]

theorem getAgg_miss_fromCache (st : AggState) (env : AggEnv) (nowMs : Nat) (cfg : AggConfig)
    (hc : cacheLookup st cfg nowMs = none) :
    outcomeFromCache ((getAggregatedLogs st env nowMs cfg).1) = false := by
  unfold getAggregatedLogs
  rw [hc]
  cases ha : aggCompute env nowMs cfg with
  | ok r => simpa [outcomeFromCache] using (aggCompute_ok_spec env nowMs cfg r ha).2.2.2.2
  | err e => rfl

theorem aggSorted_length (env : AggEnv) (nowMs : Nat) (cfg : AggConfig) :
    (aggSorted env nowMs cfg).length = (aggFiltered env nowMs cfg).length := by
  simp [aggSorted, sortLogs, List.length_insertionSort]

/-!
## Shared concrete fixtures
-/

/-- A one-user environment: alias `MyLogs` over `/base`, one readable
two-line log file modified at the epoch. -/
def wFs : Fs :=
  { dirs := fun p =>
      if p = "/base" then
        some [{ name := "app.log", isFile := true, stat := some { mtimeMs := 0, size := 10 } }]
      else none
    files := fun p =>
      if p = "/base/app.log" then
        some { stat := some { mtimeMs := 0, size := 10 }, content := some "ERROR boom\nINFO ok" }
      else none }

/-- Environment with user `u1` owning alias `MyLogs`. -/
def wEnv : AggEnv :=
  { fs := wFs
    allUsers := ["u1"]
    userAliases := fun u => if u = "u1" then [{ aliasName := "MyLogs", basePath := "/base" }] else [] }

/-- An environment with no users and no files at all. -/
def emptyEnv : AggEnv :=
  { fs := { dirs := fun _ => none, files := fun _ => none }
    allUsers := []
    userAliases := fun _ => [] }

/-- A throwaway result used as the default of `payloadOf`. -/
def dummyResult : AggResult :=
  { logs := []
    metadata :=
      { totalUsers := 0, processedUsers := 0, totalFiles := 0, totalLogs := 0,
        groupedData := [],
        filterCounts := { beforeFiltering := 0, afterFiltering := 0, levelFiltering := 0, aliasFiltering := 0 } }
    pagination := { total := 0, limit := 0, offset := 0, hasMore := false, nextOffset := none }
    cfg := {}
    executedAt := ""
    fromCache := false }

/-- The payload of a success outcome (`dummyResult` on errors). -/
def payloadOf : AggOutcome → AggResult
  | .ok r => r
  | .err _ => dummyResult

/-- The first call of the cache-law witnesses. -/
def wFirst : AggOutcome × AggState :=
  getAggregatedLogs { cache := [] } wEnv 0 {}

/-!
## C5 — level-detection priority
-/

/-- C5: the claim states that a line containing both a warning keyword and
a critical keyword classifies as CRITICAL under every level-detection
function on the parsing paths. Counterexample: the lowered line
`"warn fatal"` contains the warning keyword `warn` and the critical
keyword `fatal`, yet `LogAggregatorService.detectLogLevel` (which has no
critical tier) classifies it as WARNING, not CRITICAL. -/
theorem c5_counterexample :
    jsIncludes (jsToLower "warn fatal") "warn" = true ∧
    jsIncludes (jsToLower "warn fatal") "fatal" = true ∧
    aggDetectLogLevel "warn fatal" = "WARNING" ∧
    aggDetectLogLevel "warn fatal" ≠ "CRITICAL" := by
  refine ⟨by decide, by decide, by decide, by decide⟩

/-- C5 (amended): a line containing both a warning keyword and a critical
keyword classifies as CRITICAL under the two parser-path detectors
(`LogParserService.detectLogLevel` and `DynamicLogService.detectLogLevel`,
whose critical sets are tested first), while
`LogAggregatorService.detectLogLevel` has no critical tier and never
returns CRITICAL. -/
theorem c5_priority_law :
    ∀ line : String,
      (∃ w ∈ ["warning", "warn"], jsIncludes (jsToLower line) w = true) →
      (∃ c ∈ configCriticalKeywords, jsIncludes (jsToLower line) c = true) →
      logParserDetectLogLevel line = "CRITICAL" ∧
      dynamicDetectLogLevel line = "CRITICAL" ∧
      aggDetectLogLevel line ≠ "CRITICAL" := by
  intro line _ hcrit
  obtain ⟨c, hc, hinc⟩ := hcrit
  refine ⟨?_, ?_, ?_⟩
  · unfold logParserDetectLogLevel
    rw [if_pos (List.any_eq_true.mpr ⟨c, hc, hinc⟩)]
  · have hany : (["fatal", "critical", "crash", "abort", "emergency", "panic"] : List String).any
        (fun k => jsIncludes (jsToLower line) k) = true := List.any_eq_true.mpr ⟨c, hc, hinc⟩
    simp [dynamicDetectLogLevel, dynamicLevelPatterns, List.find?, hany]
  · unfold aggDetectLogLevel
    split_ifs <;> decide

/-- C5 witness: the priority law applied to the concrete line
`"warn fatal"`. -/
theorem c5_priority_law_witness :
    logParserDetectLogLevel "warn fatal" = "CRITICAL" ∧
    dynamicDetectLogLevel "warn fatal" = "CRITICAL" ∧
    aggDetectLogLevel "warn fatal" ≠ "CRITICAL" :=
  c5_priority_law "warn fatal" ⟨"warn", by decide, by decide⟩ ⟨"fatal", by decide, by decide⟩

/-!
## C7 / C8 — watcher retry and path-not-found behaviour
-/

/-- C7: the claim states that with max-retries 3, three consecutive
subscribe failures produce exactly one terminal watcher-failed event with
no further attempt scheduled. Counterexample: after three consecutive
failures `handleWatcherError` has emitted no `WATCHER_FAILED` event at all
and a third delayed re-subscribe is still scheduled (the source compares
`currentRetries >= maxRetries` before incrementing, so the terminal event
fires on the fourth failure). -/
theorem c7_counterexample :
    (consecutiveFailures 3).failedEvents = 0 ∧ (consecutiveFailures 3).pendingRetry = true := by
  refine ⟨by decide, by decide⟩

/-- C7 (amended): with max-retries 3, three consecutive failures consume
the three retry attempts and leave a re-subscribe scheduled with no
terminal event; the single terminal `WATCHER_FAILED` event is emitted on
the fourth consecutive failure, after which the retry entry is dropped and
no further re-subscribe is scheduled until an explicit restart. -/
theorem c7_retry_exhaustion :
    (consecutiveFailures 4).failedEvents = 1 ∧
    (consecutiveFailures 4).pendingRetry = false ∧
    (consecutiveFailures 4).retryCount = none ∧
    (consecutiveFailures 3).failedEvents = 0 ∧
    (consecutiveFailures 3).pendingRetry = true := by
  refine ⟨by decide, by decide, by decide, by decide, by decide⟩

/-- C8: a directory that is unreachable at watch start produces exactly one
`SERVICE_PATH_NOT_FOUND` notification, leaves the retry counter untouched,
schedules nothing, emits no failure event and starts no watcher; from the
initial state the result is exactly the initial state plus that one
notification. -/
theorem c8_path_not_found :
    ∀ (s : WatcherSt) (setupThrows : Bool),
      (watchService false setupThrows s).pathNotFoundEvents = s.pathNotFoundEvents + 1 ∧
      (watchService false setupThrows s).retryCount = s.retryCount ∧
      (watchService false setupThrows s).pendingRetry = s.pendingRetry ∧
      (watchService false setupThrows s).failedEvents = s.failedEvents ∧
      (watchService false setupThrows s).watching = s.watching ∧
      watchService false setupThrows watcherInit = { watcherInit with pathNotFoundEvents := 1 } := by
  intro s b
  refine ⟨?_, ?_, ?_, ?_, ?_, ?_⟩ <;> simp [watchService, watcherInit]

/-!
## C9 — cache-key canonicalization
-/

/-- C9: the claim states canonicalization is invariant under input order
and casing. Counterexample: two queries that differ only in the letter
casing of one user id produce different cache keys (`generateCacheKey`
sorts but never lower-cases). -/
theorem c9_counterexample :
    generateCacheKey { userIds := some ["Alice"] } ≠ generateCacheKey { userIds := some ["alice"] } := by
  decide

/-- Element-order equivalence of two optional id lists. -/
def optPerm (a b : Option (List String)) : Prop :=
  match a, b with
  | none, none => True
  | some l1, some l2 => l1.Perm l2
  | _, _ => False

instance (a b : Option (List String)) : Decidable (optPerm a b) :=
  match a, b with
  | none, none => isTrue trivial
  | some l1, some l2 => (inferInstance : Decidable (l1.Perm l2))
  | none, some _ => isFalse (fun h => h)
  | some _, none => isFalse (fun h => h)

theorem sortStrings_perm_eq {l1 l2 : List String} (h : l1.Perm l2) :
    sortStrings l1 = sortStrings l2 :=
  List.eq_of_perm_of_sorted
    ((List.perm_insertionSort strLe l1).trans (h.trans (List.perm_insertionSort strLe l2).symm))
    (List.sorted_insertionSort strLe l1) (List.sorted_insertionSort strLe l2)

theorem keyListPart_perm {a b : Option (List String)} (h : optPerm a b) :
    keyListPart a = keyListPart b := by
  cases a with
  | none => cases b with
    | none => rfl
    | some l2 => exact absurd h (by simp [optPerm])
  | some l1 => cases b with
    | none => exact absurd h (by simp [optPerm])
    | some l2 =>
      have hp : l1.Perm l2 := h
      simp [keyListPart, sortStrings_perm_eq hp]

/-- C9 (amended): the cache key is invariant under the order of elements in
`userIds`, `aliasNames` and `logLevels` (they are sorted before joining),
but it is case-sensitive: queries differing only in letter casing
canonicalize to different keys. -/
theorem c9_canonicalization :
    ∀ c1 c2 : AggConfig,
      optPerm c1.userIds c2.userIds →
      optPerm c1.aliasNames c2.aliasNames →
      optPerm c1.logLevels c2.logLevels →
      c1.date = c2.date → c1.limit = c2.limit → c1.offset = c2.offset →
      generateCacheKey c1 = generateCacheKey c2 := by
  intro c1 c2 h1 h2 h3 h4 h5 h6
  unfold generateCacheKey
  rw [keyListPart_perm h1, keyListPart_perm h2, keyListPart_perm h3, h4, h5, h6]

/-- C9 witness: two queries listing the same user ids and levels in
different order share a cache key. -/
theorem c9_canonicalization_witness :
    generateCacheKey { userIds := some ["b", "a"], logLevels := some ["ERROR", "WARNING"] } =
      generateCacheKey { userIds := some ["a", "b"], logLevels := some ["WARNING", "ERROR"] } :=
  c9_canonicalization
    { userIds := some ["b", "a"], logLevels := some ["ERROR", "WARNING"] }
    { userIds := some ["a", "b"], logLevels := some ["WARNING", "ERROR"] }
    (by decide) (by decide) (by decide) rfl rfl rfl

/-!
## C6 — parse determinism across re-parses
-/

/-- Blank out the one time-dependent field of a parsed entry. -/
def eraseEntryTime (e : DynLogEntry) : DynLogEntry :=
  { e with timestamp := "" }

/-- C6: the claim states parsing the same content twice yields identical
entry sequences on every parsing path. Counterexample: the line `hello`
matches no timestamp pattern, so `parseLogTimestamp` backfills the current
wall-clock time; two parses of the same content at different instants
disagree on the entry's `timestamp` field. -/
theorem c6_counterexample :
    parseLogContent "hello" "a.log" 0 ≠ parseLogContent "hello" "a.log" 1000 := by
  decide

theorem parseLogLine_erase_time (line : String) (n : Nat) (f : String) (t1 t2 : Nat) :
    eraseEntryTime (parseLogLine line n f t1) = eraseEntryTime (parseLogLine line n f t2) := by
  simp [parseLogLine, eraseEntryTime]

theorem parseLogLine_time_indep (line : String) (n : Nat) (f : String) (t1 t2 : Nat)
    (h : parseLogTimestampMatch line ≠ none) :
    parseLogLine line n f t1 = parseLogLine line n f t2 := by
  cases hm : parseLogTimestampMatch line with
  | none => exact absurd hm h
  | some v => simp [parseLogLine, parseLogTimestamp, hm]

/-- C6 (amended): re-parsing identical content preserves every field except
the backfilled `timestamp`: ids, line numbers, messages, levels and flags
are identical across parses, timestamps too whenever the line matches a
timestamp pattern (on both the `DynamicLogService` and the
`LogAggregatorService` extraction paths); only lines with no recognized
timestamp receive the parse-time clock value. -/
theorem c6_parse_determinism :
    ∀ (content fileName : String) (t1 t2 : Nat),
      (parseLogContent content fileName t1).map eraseEntryTime =
        (parseLogContent content fileName t2).map eraseEntryTime ∧
      ((∀ l ∈ (splitOnNewline content).filter (fun l => jsTrim l != ""),
          parseLogTimestampMatch l ≠ none) →
        parseLogContent content fileName t1 = parseLogContent content fileName t2) ∧
      (∀ line : String, aggTimestampMatch line ≠ none →
        aggExtractTimestamp line t1 = aggExtractTimestamp line t2) := by
  intro content f t1 t2
  refine ⟨?_, ?_, ?_⟩
  · simp only [parseLogContent, List.map_reverse, List.map_map]
    have hfg : (eraseEntryTime ∘ fun p : Nat × String => parseLogLine p.2 (p.1 + 1) f t1) =
        (eraseEntryTime ∘ fun p : Nat × String => parseLogLine p.2 (p.1 + 1) f t2) :=
      funext fun p => parseLogLine_erase_time p.2 (p.1 + 1) f t1 t2
    rw [hfg]
  · intro hall
    simp only [parseLogContent]
    refine congrArg List.reverse ?_
    apply List.map_congr_left
    intro p hp
    have hline : p.2 ∈ (splitOnNewline content).filter (fun l => jsTrim l != "") :=
      snd_mem_of_mem_enumFrom _ 0 p (by simpa [List.enum] using hp)
    exact parseLogLine_time_indep p.2 (p.1 + 1) f t1 t2 (hall p.2 hline)
  · intro line h
    cases hm : aggTimestampMatch line with
    | none => exact absurd hm h
    | some v => simp [aggExtractTimestamp, hm]

/-- C6 witness: for a line with a recognized timestamp the whole parse is
stable across two distinct instants. -/
theorem c6_parse_determinism_witness :
    (parseLogContent "[10:00:05] ok" "a.log" 0).map eraseEntryTime =
      (parseLogContent "[10:00:05] ok" "a.log" 1000).map eraseEntryTime ∧
    parseLogContent "[10:00:05] ok" "a.log" 0 = parseLogContent "[10:00:05] ok" "a.log" 1000 ∧
    aggExtractTimestamp "[10:00:05] ok" 0 = aggExtractTimestamp "[10:00:05] ok" 1000 :=
  ⟨(c6_parse_determinism "[10:00:05] ok" "a.log" 0 1000).1,
   (c6_parse_determinism "[10:00:05] ok" "a.log" 0 1000).2.1 (by decide),
   (c6_parse_determinism "[10:00:05] ok" "a.log" 0 1000).2.2 "[10:00:05] ok" (by decide)⟩

/-!
## C2 — file discovery
-/

theorem discoverySelect_eq_some_iff (dirPath targetDateStr : String) (it : DirItem) (f : FileInfo) :
    discoverySelect dirPath targetDateStr it = some f ↔
      ∃ st, it.isFile = true ∧
        supportedExtensions.contains (jsToLower (extname it.name)) = true ∧
        it.stat = some st ∧ isoDateOfMs st.mtimeMs = targetDateStr ∧
        f = mkFileInfo dirPath it st (jsToLower (extname it.name)) := by
  constructor
  · intro hsel
    unfold discoverySelect at hsel
    split at hsel
    case isFalse => exact absurd hsel (by simp)
    case isTrue h1 =>
      split at hsel
      case isFalse => exact absurd hsel (by simp)
      case isTrue h2 =>
        split at hsel
        case h_2 => exact absurd hsel (by simp)
        case h_1 st hst =>
          split at hsel
          case isFalse => exact absurd hsel (by simp)
          case isTrue h3 => exact ⟨st, h1, h2, hst, h3, (Option.some.inj hsel).symm⟩
  · rintro ⟨st, h1, h2, hst, h3, rfl⟩
    have h2' : jsToLower (extname it.name) ∈ supportedExtensions := by simpa using h2
    simp [discoverySelect, h1, h2', hst, h3]

/-- C2: for every base path and target date, discovery fails with a
not-found error exactly when the base path is missing; otherwise it
returns exactly the regular files directly under the base whose lowercased
extension is supported, whose stat succeeds (a per-file stat error only
skips that file, it does not abort the scan), and whose last-modified
calendar date equals the target date, sorted by modification timestamp
descending. -/
theorem c2_file_discovery :
    ∀ (fs : Fs) (basePath : String) (targetDate : Option Nat) (nowMs : Nat),
      (fs.dirs basePath = none →
        findTodaysFiles fs basePath targetDate nowMs =
          .failure ("Path not found: " ++ basePath)) ∧
      (∀ items, fs.dirs basePath = some items →
        ∃ l, findTodaysFiles fs basePath targetDate nowMs =
            .ok (isoDateOfMs (targetDate.getD nowMs)) l ∧
          List.Sorted modifiedDesc l ∧
          l.Perm (items.filterMap (discoverySelect basePath (isoDateOfMs (targetDate.getD nowMs)))) ∧
          (∀ f : FileInfo, f ∈ l ↔ ∃ it, it ∈ items ∧ ∃ st,
            it.isFile = true ∧
            supportedExtensions.contains (jsToLower (extname it.name)) = true ∧
            it.stat = some st ∧
            isoDateOfMs st.mtimeMs = isoDateOfMs (targetDate.getD nowMs) ∧
            f = mkFileInfo basePath it st (jsToLower (extname it.name)))) := by
  intro fs basePath targetDate nowMs
  constructor
  · intro h
    unfold findTodaysFiles
    rw [h]
  · intro items h
    refine ⟨scanDirectoryForCurrentDate items basePath (isoDateOfMs (targetDate.getD nowMs)),
      ?_, ?_, ?_, ?_⟩
    · unfold findTodaysFiles
      rw [h]
    · exact List.sorted_insertionSort modifiedDesc _
    · exact List.perm_insertionSort modifiedDesc _
    · intro f
      rw [scanDirectoryForCurrentDate, List.mem_insertionSort, List.mem_filterMap]
      exact exists_congr fun it => and_congr_right fun _ =>
        discoverySelect_eq_some_iff basePath (isoDateOfMs (targetDate.getD nowMs)) it f

/-- A directory with one file per skip-reason plus two date-matching files. -/
def c2Items : List DirItem :=
  [{ name := "new.log", isFile := true, stat := some { mtimeMs := 5000, size := 3 } },
   { name := "old.log", isFile := true, stat := some { mtimeMs := 90000000, size := 4 } },
   { name := "skip.tmp", isFile := true, stat := some { mtimeMs := 1000, size := 1 } },
   { name := "bad.log", isFile := true, stat := none },
   { name := "sub", isFile := false, stat := none },
   { name := "early.log", isFile := true, stat := some { mtimeMs := 1000, size := 2 } }]

/-- Filesystem exposing `c2Items` under `/b`. -/
def c2Fs : Fs :=
  { dirs := fun p => if p = "/b" then some c2Items else none
    files := fun _ => none }

/-- C2 witness: the discovery law applied to a missing base path and to a
directory mixing matching files, a wrong-date file, an unsupported
extension, a stat error and a subdirectory. -/
theorem c2_file_discovery_witness :
    findTodaysFiles c2Fs "/missing" none 0 = .failure ("Path not found: " ++ "/missing") ∧
    (∃ l, findTodaysFiles c2Fs "/b" none 0 = .ok (isoDateOfMs ((none : Option Nat).getD 0)) l ∧
      List.Sorted modifiedDesc l ∧
      l.Perm (c2Items.filterMap (discoverySelect "/b" (isoDateOfMs ((none : Option Nat).getD 0)))) ∧
      (∀ f : FileInfo, f ∈ l ↔ ∃ it, it ∈ c2Items ∧ ∃ st,
        it.isFile = true ∧
        supportedExtensions.contains (jsToLower (extname it.name)) = true ∧
        it.stat = some st ∧
        isoDateOfMs st.mtimeMs = isoDateOfMs ((none : Option Nat).getD 0) ∧
        f = mkFileInfo "/b" it st (jsToLower (extname it.name)))) :=
  ⟨(c2_file_discovery c2Fs "/missing" none 0).1 (by decide),
   (c2_file_discovery c2Fs "/b" none 0).2 c2Items (by decide)⟩

/-!
## C1 — partial-failure handling
-/

/-- Environment where user `u1`'s alias directory lists one date-matching
file whose read fails. -/
def c1EnvA : AggEnv :=
  { fs :=
      { dirs := fun p =>
          if p = "/d" then
            some [{ name := "f.log", isFile := true, stat := some { mtimeMs := 0, size := 5 } }]
          else none
        files := fun p =>
          if p = "/d/f.log" then some { stat := some { mtimeMs := 0, size := 5 }, content := none }
          else none }
    allUsers := ["u1"]
    userAliases := fun u => if u = "u1" then [{ aliasName := "A", basePath := "/d" }] else [] }

/-- The same environment except the unreadable file does not exist at all. -/
def c1EnvB : AggEnv :=
  { fs := { dirs := fun p => if p = "/d" then some [] else none, files := fun _ => none }
    allUsers := ["u1"]
    userAliases := fun u => if u = "u1" then [{ aliasName := "A", basePath := "/d" }] else [] }

/-- C1: the claim states a per-file read failure is recorded in the
result's metadata. Counterexample: in `c1EnvA` the file `/d/f.log` is
discovered but its read fails, yet the whole aggregation outcome (result
and cache state included) is identical to the one over `c1EnvB`, where the
file does not exist — no field of the result records that a read failed,
the failed file is merely excluded from the counts and the call still
succeeds. -/
theorem c1_counterexample :
    readFileContent c1EnvA.fs "/d/f.log" = none ∧
    (match findTodaysFiles c1EnvA.fs "/d" none 0 with
     | .ok _ fl => fl.length
     | .failure _ => 0) = 1 ∧
    getAggregatedLogs { cache := [] } c1EnvA 0 {} = getAggregatedLogs { cache := [] } c1EnvB 0 {} := by
  refine ⟨by decide, by decide, by decide⟩

/-- C1 (amended): a per-alias or per-file read failure is silently skipped:
it is excluded from the counts, does not abort the call, and leaves no
record in the result metadata (a failed user is reflected only in
`processedUsers` falling short of `totalUsers`); the call returns an error
outcome only when zero users resolve, or when the grouping step throws
(grouping by `date` over an entry whose timestamp does not parse). -/
theorem c1_error_policy :
    (∀ st env nowMs cfg e st2,
      getAggregatedLogs st env nowMs cfg = (.err e, st2) →
        (aggTargetUsers env cfg = [] ∧ e = "No users found in system") ∨
          aggGrouped env nowMs cfg = .error e) ∧
    (∀ env nowMs userId date aliasNames logLevels,
      env.userAliases userId ≠ [] →
      (if (aliasNames : List String).isEmpty then env.userAliases userId
       else (env.userAliases userId).filter (fun a => aliasNames.contains a.aliasName)) ≠ [] →
      (processUserLogs env nowMs userId date aliasNames logLevels).success = true) := by
  constructor
  · intro st env nowMs cfg e st2 h
    obtain ⟨ha, _⟩ := getAgg_err_spec st env nowMs cfg e st2 h
    exact aggCompute_err_spec env nowMs cfg e ha
  · intro env nowMs userId date aliasNames logLevels h1 h2
    by_cases hb1 : (env.userAliases userId).isEmpty = true
    · exact absurd (List.isEmpty_iff.mp hb1) h1
    · by_cases hb2 : (if (aliasNames : List String).isEmpty then env.userAliases userId
          else (env.userAliases userId).filter (fun a => aliasNames.contains a.aliasName)).isEmpty = true
      · exact absurd (List.isEmpty_iff.mp hb2) h2
      · simp only [processUserLogs]
        rw [if_neg hb1, if_neg hb2]

/-- C1 witness: the error policy applied to an empty registry (the only
error outcome under default grouping) and to a user whose only alias
contains an unreadable file (the call still succeeds). -/
theorem c1_error_policy_witness :
    ((aggTargetUsers emptyEnv {} = [] ∧
        "No users found in system" = "No users found in system") ∨
      aggGrouped emptyEnv 0 {} = .error "No users found in system") ∧
    (processUserLogs c1EnvA 0 "u1" none [] []).success = true :=
  ⟨c1_error_policy.1 { cache := [] } emptyEnv 0 {} "No users found in system" { cache := [] }
      (by decide),
   c1_error_policy.2 c1EnvA 0 "u1" none [] [] (by decide) (by decide)⟩

/-!
## C3 — pagination law
-/

/-- C3: whenever a call computes a fresh result, the returned entries are
exactly `slice(offset, offset + limit)` of the flat filtered-and-sorted
sequence (never applied per group: the same flat slice is returned for
every `groupBy`), so the page length is `clamp(limit, 0, totalAfterFilter
- offset)` (truncated subtraction realizes the lower clamp at 0); and
successive pages at offsets `0, k, 2k, …` concatenate to exactly the
filtered-and-sorted sequence, covering it once without duplication. -/
theorem c3_pagination_law :
    (∀ st env nowMs cfg r st2,
      getAggregatedLogs st env nowMs cfg = (.ok r, st2) → r.fromCache = false →
        r.logs = jsSlice (aggSorted env nowMs cfg) (cfg.offset.getD 0) (cfg.limit.getD 1000) ∧
        r.logs.length =
          min (cfg.limit.getD 1000) ((aggSorted env nowMs cfg).length - cfg.offset.getD 0) ∧
        (aggSorted env nowMs cfg).length = (aggFiltered env nowMs cfg).length ∧
        r.pagination.total = (aggSorted env nowMs cfg).length) ∧
    (∀ (l : List AggLogEntry) (k n : Nat), l.length ≤ n * k →
      ((List.range n).map (fun i => jsSlice l (i * k) k)).flatten = l) := by
  constructor
  · intro st env nowMs cfg r st2 h hfc
    obtain ⟨ha, _⟩ := getAgg_fresh_spec st env nowMs cfg r st2 h hfc
    obtain ⟨hl, ht, _, _, _⟩ := aggCompute_ok_spec env nowMs cfg r ha
    refine ⟨hl, ?_, aggSorted_length env nowMs cfg, ht⟩
    rw [hl, jsSlice_length]
  · intro l k n hn
    rw [jsSlice_flatten_range]
    exact List.take_of_length_le hn

/-- The config of the pagination witness: page size 1, second page. -/
def c3Cfg : AggConfig := { limit := some 1, offset := some 1 }

/-- First call of the pagination witness. -/
def c3First : AggOutcome × AggState := getAggregatedLogs { cache := [] } wEnv 0 c3Cfg

/-- C3 witness: the pagination law applied to a two-entry aggregation with
limit 1 and offset 1, plus the two pages of size 1 covering the sequence. -/
theorem c3_pagination_law_witness :
    ((payloadOf c3First.1).logs =
        jsSlice (aggSorted wEnv 0 c3Cfg) (c3Cfg.offset.getD 0) (c3Cfg.limit.getD 1000) ∧
      (payloadOf c3First.1).logs.length =
        min (c3Cfg.limit.getD 1000) ((aggSorted wEnv 0 c3Cfg).length - c3Cfg.offset.getD 0) ∧
      (aggSorted wEnv 0 c3Cfg).length = (aggFiltered wEnv 0 c3Cfg).length ∧
      (payloadOf c3First.1).pagination.total = (aggSorted wEnv 0 c3Cfg).length) ∧
    ((List.range 2).map (fun i => jsSlice (aggSorted wEnv 0 c3Cfg) (i * 1) 1)).flatten =
      aggSorted wEnv 0 c3Cfg :=
  ⟨c3_pagination_law.1 { cache := [] } wEnv 0 c3Cfg (payloadOf c3First.1) c3First.2
      (by decide) (by decide),
   c3_pagination_law.2 (aggSorted wEnv 0 c3Cfg) 1 2 (by decide)⟩

/-!
## C4 — result-cache law
-/

/-- C4: (a) a fresh successful call stores its payload, and any call whose
query canonicalizes to the same cache key, made within the 60s TTL with
caching enabled, returns that identical payload flagged
`fromCache := true` without touching the state; (b) after `clearCache`
the next call for any query is recomputed, not served from cache
(`fromCache` falsy); (c) expiry is lazy: a stale entry is ignored at
lookup time (the call recomputes) and entries under other keys are never
swept. -/
theorem c4_cache_law :
    (∀ st env env2 t1 t2 cfg1 cfg2 r1 st1,
      generateCacheKey cfg1 = generateCacheKey cfg2 →
      getAggregatedLogs st env t1 cfg1 = (.ok r1, st1) → r1.fromCache = false →
      cfg1.enableCache.getD true = true → cfg2.enableCache.getD true = true →
      t2 - t1 < cacheTimeoutMs →
      getAggregatedLogs st1 env2 t2 cfg2 = (.ok { r1 with fromCache := true }, st1)) ∧
    (∀ st env t cfg, outcomeFromCache ((getAggregatedLogs (clearCache st) env t cfg).1) = false) ∧
    (∀ st env t cfg c,
      mapGet st.cache (generateCacheKey cfg) = some c →
      cacheTimeoutMs ≤ t - c.timestamp →
      outcomeFromCache ((getAggregatedLogs st env t cfg).1) = false ∧
      (∀ k', k' ≠ generateCacheKey cfg →
        mapGet ((getAggregatedLogs st env t cfg).2).cache k' = mapGet st.cache k')) := by
  refine ⟨?_, ?_, ?_⟩
  · intro st env env2 t1 t2 cfg1 cfg2 r1 st1 hkeq h hfc hen1 hen2 ht
    obtain ⟨_, hst⟩ := getAgg_fresh_spec st env t1 cfg1 r1 st1 h hfc
    rw [if_pos hen1] at hst
    subst hst
    apply getAgg_cache_hit _ env2 t2 cfg2 { data := r1, timestamp := t1 } hen2 ?_ ht
    rw [← hkeq]
    exact mapGet_mapSet_self _ _ _
  · intro st env t cfg
    apply getAgg_miss_fromCache
    by_cases he : cfg.enableCache.getD true = true
    · simp [cacheLookup, clearCache, mapGet, he]
    · simp [cacheLookup, he]
  · intro st env t cfg c hm hts
    have hl : cacheLookup st cfg t = none := by
      unfold cacheLookup
      by_cases he : cfg.enableCache.getD true = true
      · simp [he, hm, Nat.not_lt.mpr hts]
      · rw [if_neg he]
    refine ⟨getAgg_miss_fromCache st env t cfg hl, ?_⟩
    intro k' hk
    unfold getAggregatedLogs
    rw [hl]
    cases ha : aggCompute env t cfg with
    | ok r =>
      simp only [ha]
      by_cases he : cfg.enableCache.getD true = true
      · rw [if_pos he]
        exact mapGet_mapSet_ne st.cache (generateCacheKey cfg) k' _ hk
      · rw [if_neg he]
    | err e => simp [ha]

/-- C4 witness: the cache law exercised on a concrete service: a hit
within the TTL returns the first payload flagged, a call after
`clearCache` is fresh, and at 70s the stored entry is stale so the call
recomputes while an unrelated key is left untouched. -/
theorem c4_cache_law_witness :
    getAggregatedLogs wFirst.2 wEnv 1000 {} =
      (.ok { payloadOf wFirst.1 with fromCache := true }, wFirst.2) ∧
    outcomeFromCache ((getAggregatedLogs (clearCache wFirst.2) wEnv 2000 {}).1) = false ∧
    outcomeFromCache ((getAggregatedLogs wFirst.2 wEnv 70000 {}).1) = false ∧
    mapGet ((getAggregatedLogs wFirst.2 wEnv 70000 {}).2).cache "other" =
      mapGet wFirst.2.cache "other" :=
  ⟨c4_cache_law.1 { cache := [] } wEnv wEnv 0 1000 {} {} (payloadOf wFirst.1) wFirst.2
      rfl (by decide) (by decide) rfl rfl (by decide),
   c4_cache_law.2.1 wFirst.2 wEnv 2000 {},
   (c4_cache_law.2.2 wFirst.2 wEnv 70000 {} { data := payloadOf wFirst.1, timestamp := 0 }
      (by decide) (by decide)).1,
   (c4_cache_law.2.2 wFirst.2 wEnv 70000 {} { data := payloadOf wFirst.1, timestamp := 0 }
      (by decide) (by decide)).2 "other" (by decide)⟩

/-!
## C10 — cache-key field scope
-/

theorem cacheKey_fields_only :
    ∀ c1 c2 : AggConfig,
      c1.userIds = c2.userIds → c1.aliasNames = c2.aliasNames → c1.date = c2.date →
      c1.logLevels = c2.logLevels → c1.limit = c2.limit → c1.offset = c2.offset →
      generateCacheKey c1 = generateCacheKey c2 := by
  intro c1 c2 h1 h2 h3 h4 h5 h6
  unfold generateCacheKey
  rw [h1, h2, h3, h4, h5, h6]

/-- C10: the cache key serializes only `userIds`, `aliasNames`, `date`,
`logLevels`, `limit` and `offset`, so two configs that differ only in
`sortBy`, `sortOrder`, `groupBy`, `includeMetadata` or `enableCache` share
a key; consequently, with caching enabled, a second query within the TTL
is answered with the first query's cached payload — including the first
query's ordering and grouping — flagged `fromCache := true`. -/
theorem c10_cache_key_scope :
    (∀ c1 c2 : AggConfig,
      c1.userIds = c2.userIds → c1.aliasNames = c2.aliasNames → c1.date = c2.date →
      c1.logLevels = c2.logLevels → c1.limit = c2.limit → c1.offset = c2.offset →
      generateCacheKey c1 = generateCacheKey c2) ∧
    (∀ st env env2 t1 t2 cfg1 cfg2 r1 st1,
      cfg1.userIds = cfg2.userIds → cfg1.aliasNames = cfg2.aliasNames →
      cfg1.date = cfg2.date → cfg1.logLevels = cfg2.logLevels →
      cfg1.limit = cfg2.limit → cfg1.offset = cfg2.offset →
      getAggregatedLogs st env t1 cfg1 = (.ok r1, st1) → r1.fromCache = false →
      cfg1.enableCache.getD true = true → cfg2.enableCache.getD true = true →
      t2 - t1 < cacheTimeoutMs →
      getAggregatedLogs st1 env2 t2 cfg2 = (.ok { r1 with fromCache := true }, st1)) := by
  constructor
  · exact cacheKey_fields_only
  · intro st env env2 t1 t2 cfg1 cfg2 r1 st1 h1 h2 h3 h4 h5 h6 h hfc hen1 hen2 ht
    obtain ⟨_, hst⟩ := getAgg_fresh_spec st env t1 cfg1 r1 st1 h hfc
    rw [if_pos hen1] at hst
    subst hst
    apply getAgg_cache_hit _ env2 t2 cfg2 { data := r1, timestamp := t1 } hen2 ?_ ht
    rw [← cacheKey_fields_only cfg1 cfg2 h1 h2 h3 h4 h5 h6]
    exact mapGet_mapSet_self _ _ _

/-- A config differing from the default only in sort, group and metadata
options. -/
def wCfgB : AggConfig :=
  { sortBy := some "level", sortOrder := some "asc", groupBy := some "user",
    includeMetadata := some false }

/-- C10 witness: the default query and `wCfgB` share a cache key, and the
second call (with different sorting and grouping options) is answered with
the first query's cached payload. -/
theorem c10_cache_key_scope_witness :
    generateCacheKey ({} : AggConfig) = generateCacheKey wCfgB ∧
    getAggregatedLogs wFirst.2 wEnv 1000 wCfgB =
      (.ok { payloadOf wFirst.1 with fromCache := true }, wFirst.2) :=
  ⟨c10_cache_key_scope.1 {} wCfgB rfl rfl rfl rfl rfl rfl,
   c10_cache_key_scope.2 { cache := [] } wEnv wEnv 0 1000 {} wCfgB (payloadOf wFirst.1) wFirst.2
      rfl rfl rfl rfl rfl rfl (by decide) (by decide) rfl rfl (by decide)⟩
